import Mathlib

/-!
Verification of the download-orchestration core of a YouTube playlist
downloader (file `youtube_downloader_optimized.py`).

The embedding models:
- `VideoItem` (the per-video mutable record),
- `video_progress_hook` (the yt-dlp progress callback, including its
  cancellation check and its cooperative pause loop, modelled with
  time-varying flag observations and a fuel bound for the busy-wait),
- `download_single_video` (one item download: reset of flags, run of the
  external capability which fires callback events, and the exception
  handler that marks the item failed),
- `_download_all_videos_thread` (the sequential download-all loop with
  its completed counter and overall progress bar),
- `_process_analysis_results` (conversion of playlist entries into
  VideoItems),
- the control surface (`pause_video`, `resume_video`, the per-item body
  of `cancel_all_downloads`),
- `load_config` / `save_config` (the single-key JSON configuration).

Machine reals (the Python float `progress`) are modelled as rationals.
-/

namespace Downloader

/-- The per-video record (`class VideoItem`, lines 20-42). Fields follow
the constructor defaults: status "pending", progress 0, empty strings,
zero byte counters, both control flags clear. -/
structure VideoItem where
  id : String
  title : String
  url : String
  duration : String
  thumbnail : Option String
  progress : ℚ
  status : String
  speed : String
  eta : String
  filesize : Nat
  downloaded_bytes : Nat
  error_message : String
  output_filename : String
  is_paused : Bool
  is_cancelled : Bool
deriving Repr, DecidableEq

/-- `VideoItem.__init__`: a fresh record with the default download state. -/
def mkVideoItem (video_id title url : String) (duration : String)
    (thumbnail : Option String) : VideoItem :=
  { id := video_id
    title := title
    url := url
    duration := duration
    thumbnail := thumbnail
    progress := 0
    status := "pending"
    speed := ""
    eta := ""
    filesize := 0
    downloaded_bytes := 0
    error_message := ""
    output_filename := ""
    is_paused := false
    is_cancelled := false }

/-- One telemetry dictionary passed by yt-dlp to the progress hook.
Absent numeric keys are modelled as the 0 default used by `d.get(k, 0)`. -/
structure ProgressDict where
  status : String
  downloaded_bytes : Nat
  total_bytes : Nat
  total_bytes_estimate : Nat
  speed_str : String
  eta_str : String
  filename : String
deriving Repr, DecidableEq

/-- Lines 429-445 of `video_progress_hook`: the state update performed
once the cancellation check has passed and the pause loop has exited.
`filesize` is `total_bytes or total_bytes_estimate` (Python truthiness on
numbers: first nonzero), and `progress` is recomputed only when the new
`filesize` is positive. -/
def hook_body (d : ProgressDict) (v : VideoItem) : VideoItem :=
  if d.status = "downloading" then
    let v1 := { v with
      downloaded_bytes := d.downloaded_bytes
      filesize := if d.total_bytes ≠ 0 then d.total_bytes else d.total_bytes_estimate
      speed := d.speed_str
      eta := d.eta_str }
    if v1.filesize > 0 then
      { v1 with progress := ((v1.downloaded_bytes : ℚ) / (v1.filesize : ℚ)) * 100 }
    else v1
  else if d.status = "finished" then
    { v with status := "completed", progress := 100, output_filename := d.filename }
  else v

/-- Outcome of one invocation of the progress hook. `raised` carries the
exception message and the (unmodified) item; `blocked` means the busy-wait
pause loop never observed the pause flag clear within the given fuel, the
item again unmodified (the loop body is only a sleep). -/
inductive HookOut where
  | raised (msg : String) (v : VideoItem)
  | blocked (v : VideoItem)
  | ok (v : VideoItem)
deriving Repr, DecidableEq

/-- Least index `n < fuel` with `s n = false`, scanning from 0 upward:
the number of sleep iterations of `while video_item.is_paused` before the
flag is observed clear. -/
def firstFalse (s : Nat → Bool) : Nat → Option Nat
  | 0 => none
  | n + 1 =>
    match firstFalse s n with
    | some k => some k
    | none => if s n then none else some n

/-- Lines 421-445, `video_progress_hook`, against time-varying flag
observations: `cancelledAt n` / `pausedAt n` are the values of
`is_cancelled` / `is_paused` the hook would read at its n-th flag read.
The code reads `is_cancelled` exactly once, before the pause loop
(`if video_item.is_cancelled: raise Exception("Download cancelled")`),
then polls `is_paused` each loop iteration. `fuel` bounds how many polls
we unfold; `blocked` reports that the flag was never seen clear. -/
def hook_core (cancelledAt pausedAt : Nat → Bool) (fuel : Nat)
    (d : ProgressDict) (v : VideoItem) : HookOut :=
  if cancelledAt 0 then .raised "Download cancelled" v
  else
    match firstFalse pausedAt fuel with
    | none => .blocked v
    | some _ => .ok (hook_body d v)

/-- The progress hook as invoked when no other thread is flipping the
flags during the call: the hook observes the constant values stored in
the item. With a constant pause flag one poll decides the loop (set
means it blocks forever, clear means it exits at once). -/
def video_progress_hook (d : ProgressDict) (v : VideoItem) : HookOut :=
  hook_core (fun _ => v.is_cancelled) (fun _ => v.is_paused) 1 d v

/-- Per-item body of `cancel_all_downloads` (lines 499-503): only items
currently downloading or paused are flagged; `is_paused` is not touched. -/
def cancel_all_item (v : VideoItem) : VideoItem :=
  if v.status = "downloading" ∨ v.status = "paused" then
    { v with is_cancelled := true, status := "cancelled" }
  else v

/-- `cancel_all_downloads` (lines 497-503) over the whole list. -/
def cancel_all_downloads (videos : List VideoItem) : List VideoItem :=
  videos.map cancel_all_item

/-- `pause_video` (lines 471-476). -/
def pause_video (v : VideoItem) : VideoItem :=
  if v.status = "downloading" then
    { v with is_paused := true, status := "paused" }
  else v

/-- `resume_video` (lines 478-483). -/
def resume_video (v : VideoItem) : VideoItem :=
  if v.status = "paused" then
    { v with is_paused := false, status := "downloading" }
  else v

/-- One observable step of `ydl.download` interleaved with the GUI:
either yt-dlp invokes the progress hook with a telemetry dictionary,
or the user hits Cancel All while this item is the one downloading
(applying the per-item body of `cancel_all_downloads` to it), or the
library itself raises an error with the given message. -/
inductive Step where
  | ev (d : ProgressDict)
  | cancelAll
  | libRaise (msg : String)
deriving Repr, DecidableEq

/-- Result of running `ydl.download` on one item: normal return, an
exception propagating out (with the item state at that point, since the
hook mutates the shared record in place), or the hook blocking forever
in its pause loop. -/
inductive DlResult where
  | ok (v : VideoItem)
  | err (msg : String) (v : VideoItem)
  | hang (v : VideoItem)
deriving Repr, DecidableEq

/-- Run the download steps in order. A hook invocation that raises makes
the whole `ydl.download` call raise; later steps are not reached. -/
def run_steps : List Step → VideoItem → DlResult
  | [], v => .ok v
  | .ev d :: rest, v =>
    match video_progress_hook d v with
    | .raised msg v' => .err msg v'
    | .blocked v' => .hang v'
    | .ok v' => run_steps rest v'
  | .cancelAll :: rest, v => run_steps rest (cancel_all_item v)
  | .libRaise msg :: _, v => .err msg v

/-- Lines 393-396 of `download_single_video`: before invoking the
capability, the item is unconditionally put into the downloading state
and both control flags are cleared. -/
def start_download (v : VideoItem) : VideoItem :=
  { v with status := "downloading", is_cancelled := false, is_paused := false }

/-- `download_single_video` (lines 391-419): reset the item, run the
external download (whose observable behaviour is the step list), and on
any exception mark the item failed and store the message (lines 416-419).
A hang (pause loop never released) never returns in Python; the model
returns the item state at the block, and the loop theorems show this
branch is unreachable when the scripts contain no pause interference. -/
def download_single_video (steps : List Step) (v : VideoItem) : VideoItem :=
  match run_steps steps (start_download v) with
  | .ok v' => v'
  | .err msg v' => { v' with status := "failed", error_message := msg }
  | .hang v' => v'

/-- Result of `_download_all_videos_thread`: the item list after the
loop, the local `completed` counter, the last value written to the
overall progress bar (`bar`, initially 0 and set only when an item
finishes completed), and the positions for which `download_single_video`
was invoked, in invocation order. -/
structure LoopResult where
  items : List VideoItem
  completed : Nat
  bar : ℚ
  attempted : List Nat
deriving Repr, DecidableEq

/-- The body of the loop at lines 374-385, with `i` the position of the
head item, `total` the value of `total_videos` (taken before the loop),
and `scripts i` the observable behaviour of the external capability on
item `i`. Items already completed or failed are skipped (`continue`);
otherwise the item is downloaded and, if it ended completed, the counter
and the overall bar are updated. -/
def download_all_aux (scripts : Nat → List Step) (total : Nat) :
    Nat → Nat → ℚ → List VideoItem → LoopResult
  | _, completed, bar, [] => ⟨[], completed, bar, []⟩
  | i, completed, bar, v :: rest =>
    if v.status = "completed" ∨ v.status = "failed" then
      let r := download_all_aux scripts total (i + 1) completed bar rest
      ⟨v :: r.items, r.completed, r.bar, r.attempted⟩
    else
      let v' := download_single_video (scripts i) v
      let completed' := if v'.status = "completed" then completed + 1 else completed
      let bar' := if v'.status = "completed"
        then ((completed' : ℚ) / (total : ℚ)) * 100 else bar
      let r := download_all_aux scripts total (i + 1) completed' bar' rest
      ⟨v' :: r.items, r.completed, r.bar, i :: r.attempted⟩

/-- `_download_all_videos_thread` (lines 369-389): `total_videos` is the
list length, the counter starts at 0 and the bar at its initial 0. -/
def download_all_videos_thread (scripts : Nat → List Step)
    (videos : List VideoItem) : LoopResult :=
  download_all_aux scripts videos.length 0 0 0 videos

/-- One entry of the playlist result handed back by the extraction
capability; every field the analyzer reads is optional, matching
`video.get(...)`. An entry may itself be missing (`None` in the entries
list), modelled at use sites by `Option Entry`. -/
structure Entry where
  id : Option String
  title : Option String
  duration_string : Option String
  thumbnail : Option String
deriving Repr, DecidableEq

/-- Python truthiness of `video.get("id")`: present and non-empty. -/
def truthyId : Option String → Bool
  | none => false
  | some s => !(s = "")

/-- The VideoItem built at lines 303-309 for entry `e` at 1-based
position `idx` (the guard has already ensured `e.id` is truthy). -/
def entryToItem (idx : Nat) (e : Entry) : VideoItem :=
  mkVideoItem
    (e.id.getD (toString idx))
    (e.title.getD ("Video " ++ toString idx))
    ("https://www.youtube.com/watch?v=" ++ e.id.getD "")
    (e.duration_string.getD "Unknown")
    e.thumbnail

/-- Lines 300-310: `for idx, video in enumerate(videos, 1)` with the
guard `if video and video.get("id")`. The index counts every entry,
skipped ones included. -/
def process_entries : Nat → List (Option Entry) → List VideoItem
  | _, [] => []
  | idx, oe :: rest =>
    match oe with
    | some e =>
      if truthyId e.id then entryToItem idx e :: process_entries (idx + 1) rest
      else process_entries (idx + 1) rest
    | none => process_entries (idx + 1) rest

/-- The playlist branch of `_process_analysis_results` (lines 295-312):
the produced `self.videos` list. -/
def process_analysis_results (entries : List (Option Entry)) : List VideoItem :=
  process_entries 1 entries

/-- The identifier each kept entry contributes, in source order: the
ids of the entries that pass the `if video and video.get("id")` guard. -/
def keptIds (entries : List (Option Entry)) : List String :=
  entries.filterMap fun oe =>
    match oe with
    | some e => match e.id with
      | some s => if s = "" then none else some s
      | none => none
    | none => none

/-- The persisted configuration file: a JSON object whose only
recognized key is `download_path`, possibly absent. -/
structure ConfigFile where
  download_path : Option String
deriving Repr, DecidableEq

/-- The platform default assigned at line 54: the Downloads folder under
the home directory of the user. -/
def defaultDownloadPath (home : String) : String := home ++ "/Downloads"

/-- `load_config` (lines 66-74): applied to the config file contents if
one exists (`none` models a missing file) and the current path (the
default in a fresh instance); `config.get("download_path", current)`
keeps the current path when the key is absent. -/
def load_config (file : Option ConfigFile) (current : String) : String :=
  match file with
  | none => current
  | some c => c.download_path.getD current

/-- `save_config` (lines 76-83): writes the single-key object. -/
def save_config (path : String) : ConfigFile :=
  { download_path := some path }

/-- Placeholder item used as the default of positional lookups. -/
def dummyItem : VideoItem := mkVideoItem "" "" "" "" none

/-- A download behaviour that succeeds: from any item state the loop can
hand it (flags freshly cleared, status set to downloading), running the
steps returns normally with the item marked completed. -/
def Succeeds (s : List Step) : Prop :=
  ∀ v : VideoItem, v.is_cancelled = false → v.is_paused = false →
    v.status = "downloading" →
    ∃ v', run_steps s v = .ok v' ∧ v'.status = "completed"

/-- A download behaviour that raises an error with message `msg`: from
any item state the loop can hand it, running the steps propagates an
exception carrying `msg`. -/
def FailsWith (s : List Step) (msg : String) : Prop :=
  ∀ v : VideoItem, v.is_cancelled = false → v.is_paused = false →
    v.status = "downloading" →
    ∃ v', run_steps s v = .err msg v'

/-- A step that is a plain telemetry event in the downloading phase. -/
def DownloadingEv (s : Step) : Prop :=
  ∃ d, s = Step.ev d ∧ d.status = "downloading"

section HookLemmas

variable (d : ProgressDict) (v : VideoItem)

lemma hook_body_is_cancelled : (hook_body d v).is_cancelled = v.is_cancelled := by
  simp only [hook_body]
  repeat' split
  all_goals rfl

lemma hook_body_is_paused : (hook_body d v).is_paused = v.is_paused := by
  simp only [hook_body]
  repeat' split
  all_goals rfl

lemma hook_body_status_downloading (h : d.status = "downloading") :
    (hook_body d v).status = v.status := by
  simp only [hook_body, if_pos h]
  repeat' split
  all_goals rfl

lemma hook_body_status_finished (h : d.status = "finished") :
    (hook_body d v).status = "completed" := by
  unfold hook_body
  rw [h, if_neg (by decide : ¬(("finished" : String) = "downloading")), if_pos rfl]

lemma hook_body_keeps_completed (h : v.status = "completed") :
    (hook_body d v).status = "completed" := by
  simp only [hook_body]
  repeat' split
  all_goals (first | rfl | exact h)

lemma hook_ok (hc : v.is_cancelled = false) (hp : v.is_paused = false) :
    video_progress_hook d v = .ok (hook_body d v) := by
  unfold video_progress_hook hook_core firstFalse firstFalse
  rw [hc, hp]
  rfl

lemma hook_raises (hc : v.is_cancelled = true) :
    video_progress_hook d v = .raised "Download cancelled" v := by
  unfold video_progress_hook hook_core
  rw [hc]
  rfl

end HookLemmas

section RunLemmas

lemma run_steps_nil (v : VideoItem) : run_steps [] v = .ok v := rfl

lemma run_steps_ev_ok {v : VideoItem} (d : ProgressDict) (rest : List Step)
    (hc : v.is_cancelled = false) (hp : v.is_paused = false) :
    run_steps (Step.ev d :: rest) v = run_steps rest (hook_body d v) := by
  show (match video_progress_hook d v with
    | .raised msg v' => DlResult.err msg v'
    | .blocked v' => DlResult.hang v'
    | .ok v' => run_steps rest v') = _
  rw [hook_ok d v hc hp]

lemma run_steps_ev_raised {v : VideoItem} (d : ProgressDict)
    (rest : List Step) (hc : v.is_cancelled = true) :
    run_steps (Step.ev d :: rest) v = .err "Download cancelled" v := by
  show (match video_progress_hook d v with
    | .raised msg v' => DlResult.err msg v'
    | .blocked v' => DlResult.hang v'
    | .ok v' => run_steps rest v') = _
  rw [hook_raises d v hc]

lemma run_steps_cancelAll (rest : List Step) (v : VideoItem) :
    run_steps (Step.cancelAll :: rest) v = run_steps rest (cancel_all_item v) :=
  rfl

lemma run_steps_libRaise (msg : String) (rest : List Step) (v : VideoItem) :
    run_steps (Step.libRaise msg :: rest) v = .err msg v :=
  rfl

/-- Running a list of downloading-phase events keeps the control flags
clear and the status at "downloading", and merely advances the item. -/
lemma run_downloading_evs (l : List Step) (hl : ∀ s ∈ l, DownloadingEv s)
    (l2 : List Step) (v : VideoItem) (hc : v.is_cancelled = false)
    (hp : v.is_paused = false) (hs : v.status = "downloading") :
    ∃ v', run_steps (l ++ l2) v = run_steps l2 v' ∧
      v'.is_cancelled = false ∧ v'.is_paused = false ∧
      v'.status = "downloading" := by
  induction l generalizing v with
  | nil => exact ⟨v, rfl, hc, hp, hs⟩
  | cons s rest ih =>
    obtain ⟨d, rfl, hd⟩ := hl s (List.mem_cons_self _ _)
    have hrun : run_steps ((Step.ev d :: rest) ++ l2) v
        = run_steps (rest ++ l2) (hook_body d v) := by
      rw [List.cons_append, run_steps_ev_ok d (rest ++ l2) hc hp]
    obtain ⟨v', h1, h2, h3, h4⟩ := ih (fun s hs => hl s (List.mem_cons_of_mem _ hs))
      (hook_body d v)
      (by rw [hook_body_is_cancelled]; exact hc)
      (by rw [hook_body_is_paused]; exact hp)
      (by rw [hook_body_status_downloading d v hd]; exact hs)
    exact ⟨v', by rw [hrun, h1], h2, h3, h4⟩

lemma download_single_succeeds {s : List Step} (h : Succeeds s)
    (v : VideoItem) : (download_single_video s v).status = "completed" := by
  obtain ⟨v', hrun, hst⟩ := h (start_download v) rfl rfl rfl
  unfold download_single_video
  rw [hrun]
  exact hst

lemma download_single_fails {s : List Step} {msg : String}
    (h : FailsWith s msg) (v : VideoItem) :
    (download_single_video s v).status = "failed" ∧
      (download_single_video s v).error_message = msg := by
  obtain ⟨v', hrun⟩ := h (start_download v) rfl rfl rfl
  unfold download_single_video
  rw [hrun]
  exact ⟨rfl, rfl⟩

lemma succeeds_finished (d : ProgressDict) (h : d.status = "finished") :
    Succeeds [Step.ev d] := by
  intro v hc hp _
  refine ⟨hook_body d v, ?_, hook_body_status_finished d v h⟩
  rw [run_steps_ev_ok d [] hc hp, run_steps_nil]

lemma failswith_libRaise (msg : String) : FailsWith [Step.libRaise msg] msg :=
  fun v _ _ _ => ⟨v, rfl⟩

end RunLemmas

section LoopLemmas

variable (scripts : Nat → List Step) (total : Nat)

lemma aux_nil (i c : Nat) (b : ℚ) :
    download_all_aux scripts total i c b [] = ⟨[], c, b, []⟩ := rfl

lemma aux_cons_skip (i c : Nat) (b : ℚ) (v : VideoItem) (rest : List VideoItem)
    (h : v.status = "completed" ∨ v.status = "failed") :
    download_all_aux scripts total i c b (v :: rest) =
      ⟨v :: (download_all_aux scripts total (i + 1) c b rest).items,
        (download_all_aux scripts total (i + 1) c b rest).completed,
        (download_all_aux scripts total (i + 1) c b rest).bar,
        (download_all_aux scripts total (i + 1) c b rest).attempted⟩ := by
  simp only [download_all_aux]
  rw [if_pos h]

lemma aux_cons_go (i c : Nat) (b : ℚ) (v : VideoItem) (rest : List VideoItem)
    (h : ¬(v.status = "completed" ∨ v.status = "failed")) :
    download_all_aux scripts total i c b (v :: rest) =
      (let dv := download_single_video (scripts i) v
      let completed' := if dv.status = "completed" then c + 1 else c
      let bar' := if dv.status = "completed"
        then ((completed' : ℚ) / (total : ℚ)) * 100 else b
      let r := download_all_aux scripts total (i + 1) completed' bar' rest
      ⟨dv :: r.items, r.completed, r.bar, i :: r.attempted⟩) := by
  simp only [download_all_aux]
  rw [if_neg h]

lemma items_length (vs : List VideoItem) :
    ∀ (i c : Nat) (b : ℚ),
      (download_all_aux scripts total i c b vs).items.length = vs.length := by
  induction vs with
  | nil => intro i c b; rfl
  | cons v rest ih =>
    intro i c b
    by_cases h : v.status = "completed" ∨ v.status = "failed"
    · rw [aux_cons_skip scripts total i c b v rest h]
      simp [ih]
    · rw [aux_cons_go scripts total i c b v rest h]
      simp [ih]

lemma items_getD (vs : List VideoItem) :
    ∀ (i c k : Nat) (b : ℚ), k < vs.length →
      (download_all_aux scripts total i c b vs).items.getD k dummyItem =
        if (vs.getD k dummyItem).status = "completed" ∨
            (vs.getD k dummyItem).status = "failed"
        then vs.getD k dummyItem
        else download_single_video (scripts (i + k)) (vs.getD k dummyItem) := by
  induction vs with
  | nil => intro i c k b hk; simp at hk
  | cons v rest ih =>
    intro i c k b hk
    by_cases h : v.status = "completed" ∨ v.status = "failed"
    · rw [aux_cons_skip scripts total i c b v rest h]
      match k with
      | 0 => simpa using (if_pos h).symm
      | k + 1 =>
        have hk' : k < rest.length := by simpa using hk
        have harith : i + 1 + k = i + (k + 1) := by omega
        simpa [harith] using ih (i + 1) c k _ hk'
    · rw [aux_cons_go scripts total i c b v rest h]
      match k with
      | 0 => simpa using (if_neg h).symm
      | k + 1 =>
        have hk' : k < rest.length := by simpa using hk
        have harith : i + 1 + k = i + (k + 1) := by omega
        simpa [harith] using ih (i + 1) _ k _ hk'

lemma mem_attempted (vs : List VideoItem) :
    ∀ (i c : Nat) (b : ℚ) (j : Nat),
      j ∈ (download_all_aux scripts total i c b vs).attempted ↔
        ∃ k, k < vs.length ∧ j = i + k ∧
          ¬((vs.getD k dummyItem).status = "completed" ∨
            (vs.getD k dummyItem).status = "failed") := by
  induction vs with
  | nil =>
    intro i c b j
    simp [aux_nil]
  | cons v rest ih =>
    intro i c b j
    by_cases h : v.status = "completed" ∨ v.status = "failed"
    · rw [aux_cons_skip scripts total i c b v rest h]
      simp only
      rw [ih]
      constructor
      · rintro ⟨k, hk, rfl, hP⟩
        exact ⟨k + 1, by simpa using hk, by omega, by simpa using hP⟩
      · rintro ⟨k, hk, hj, hP⟩
        match k with
        | 0 => exact absurd h (by simpa using hP)
        | k + 1 =>
          exact ⟨k, by simpa using hk, by omega, by simpa using hP⟩
    · rw [aux_cons_go scripts total i c b v rest h]
      simp only [List.mem_cons]
      rw [ih]
      constructor
      · rintro (rfl | ⟨k, hk, rfl, hP⟩)
        · exact ⟨0, by simp, by omega, by simpa using h⟩
        · exact ⟨k + 1, by simpa using hk, by omega, by simpa using hP⟩
      · rintro ⟨k, hk, hj, hP⟩
        match k with
        | 0 => left; omega
        | k + 1 =>
          right
          exact ⟨k, by simpa using hk, by omega, by simpa using hP⟩

lemma attempted_lb (vs : List VideoItem) (i c : Nat) (b : ℚ) (j : Nat)
    (hj : j ∈ (download_all_aux scripts total i c b vs).attempted) : i ≤ j := by
  obtain ⟨k, -, rfl, -⟩ := (mem_attempted scripts total vs i c b j).mp hj
  omega

lemma attempted_sorted (vs : List VideoItem) :
    ∀ (i c : Nat) (b : ℚ),
      (download_all_aux scripts total i c b vs).attempted.Sorted (· < ·) := by
  induction vs with
  | nil => intro i c b; simp [aux_nil]
  | cons v rest ih =>
    intro i c b
    by_cases h : v.status = "completed" ∨ v.status = "failed"
    · rw [aux_cons_skip scripts total i c b v rest h]
      exact ih (i + 1) c b
    · rw [aux_cons_go scripts total i c b v rest h]
      simp only
      rw [List.sorted_cons]
      refine ⟨fun j hj => ?_, ih (i + 1) _ _⟩
      have := attempted_lb scripts total rest (i + 1) _ _ j hj
      omega

lemma c3_aux (hs : ∀ j, Succeeds (scripts j)) (vs : List VideoItem) :
    ∀ (i c : Nat) (b : ℚ), (∀ v ∈ vs, ¬(v.status = "completed" ∨ v.status = "failed")) →
      (download_all_aux scripts total i c b vs).completed = c + vs.length
      ∧ (∀ w ∈ (download_all_aux scripts total i c b vs).items, w.status = "completed")
      ∧ (vs ≠ [] →
          (download_all_aux scripts total i c b vs).bar
            = (((c + vs.length : ℕ)) : ℚ) / (total : ℚ) * 100) := by
  induction vs with
  | nil =>
    intro i c b _
    refine ⟨by simp [aux_nil], by simp [aux_nil], by simp⟩
  | cons v rest ih =>
    intro i c b hall
    have hv : ¬(v.status = "completed" ∨ v.status = "failed") :=
      hall v (List.mem_cons_self _ _)
    have hdv : (download_single_video (scripts i) v).status = "completed" :=
      download_single_succeeds (hs i) v
    rw [aux_cons_go scripts total i c b v rest hv]
    simp only [hdv, eq_self_iff_true, if_true]
    have hrest : ∀ v ∈ rest, ¬(v.status = "completed" ∨ v.status = "failed") :=
      fun w hw => hall w (List.mem_cons_of_mem _ hw)
    obtain ⟨ih1, ih2, ih3⟩ := ih (i + 1) (c + 1) (((c + 1 : ℕ) : ℚ) / (total : ℚ) * 100) hrest
    refine ⟨?_, ?_, ?_⟩
    · rw [ih1]; simp; omega
    · intro w hw
      rcases List.mem_cons.mp hw with rfl | hw'
      · exact hdv
      · exact ih2 w hw'
    · intro _
      match rest with
      | [] =>
        rw [aux_nil]
        norm_num
      | r :: rs =>
        rw [ih3 (by simp)]
        have : c + 1 + (r :: rs).length = c + (v :: r :: rs).length := by
          simp; omega
        rw [this]

end LoopLemmas

section AnalyzerLemmas

/-- The produced items carry exactly the ids of the kept entries, in
source order; the starting index does not matter for the ids. -/
lemma process_map_id (entries : List (Option Entry)) :
    ∀ idx, (process_entries idx entries).map VideoItem.id = keptIds entries := by
  induction entries with
  | nil => intro idx; rfl
  | cons oe rest ih =>
    intro idx
    match oe with
    | none => simpa [process_entries, keptIds] using ih (idx + 1)
    | some e =>
      match he : e.id with
      | none => simpa [process_entries, keptIds, truthyId, he] using ih (idx + 1)
      | some s =>
        by_cases hs : s = ""
        · subst hs
          simpa [process_entries, keptIds, truthyId, he] using ih (idx + 1)
        · simp only [process_entries, keptIds, truthyId, he, hs, List.filterMap_cons]
          simp only [if_neg hs, Bool.not_eq_true']
          rw [if_pos (by simp [hs])]
          simp only [List.map_cons]
          rw [ih (idx + 1)]
          simp [entryToItem, mkVideoItem, he, keptIds]

end AnalyzerLemmas

section PauseLemmas

lemma firstFalse_none (s : Nat → Bool) :
    ∀ fuel, (∀ n, n < fuel → s n = true) → firstFalse s fuel = none := by
  intro fuel
  induction fuel with
  | zero => intro _; rfl
  | succ m ih =>
    intro h
    have h1 : firstFalse s m = none := ih (fun n hn => h n (by omega))
    have h2 : s m = true := h m (by omega)
    unfold firstFalse
    rw [h1, h2]
    rfl

lemma firstFalse_isSome (s : Nat → Bool) :
    ∀ fuel n, n < fuel → s n = false → ∃ k, firstFalse s fuel = some k := by
  intro fuel
  induction fuel with
  | zero => intro n hn _; omega
  | succ m ih =>
    intro n hn hs
    by_cases hm : n < m
    · obtain ⟨k, hk⟩ := ih n hm hs
      refine ⟨k, ?_⟩
      unfold firstFalse
      rw [hk]
    · have hnm : n = m := by omega
      subst hnm
      cases hfk : firstFalse s n with
      | some k =>
        refine ⟨k, ?_⟩
        unfold firstFalse
        rw [hfk]
      | none =>
        refine ⟨n, ?_⟩
        unfold firstFalse
        rw [hfk, hs]
        rfl

end PauseLemmas

section Examples

/-- A freshly analyzed item (status "pending", flags clear). -/
def vFresh (n : String) : VideoItem :=
  mkVideoItem n ("Video " ++ n) ("https://example.com/" ++ n) "1:00" none

/-- An item that already finished in an earlier run. -/
def vDone : VideoItem := { vFresh "c" with status := "completed" }

/-- A paused item, as `pause_video` leaves one. -/
def vPausedW : VideoItem := { vFresh "w9" with status := "paused", is_paused := true }

/-- A finished-phase telemetry dictionary. -/
def dFin : ProgressDict := ⟨"finished", 0, 0, 0, "", "", "out.mp4"⟩

/-- A downloading-phase dictionary with a known total. -/
def dDl : ProgressDict := ⟨"downloading", 10, 100, 0, "1MiB.s", "00:05", ""⟩

/-- A downloading-phase dictionary with no total reported. -/
def dNoTotal : ProgressDict := ⟨"downloading", 7, 0, 0, "", "", ""⟩

/-- A capability behaviour that succeeds on every item. -/
def sGood : Nat → List Step := fun _ => [Step.ev dFin]

/-- A behaviour where item 0 raises "boom" and every other item succeeds. -/
def sBad0 : Nat → List Step :=
  fun j => if j = 0 then [Step.libRaise "boom"] else [Step.ev dFin]

end Examples

/-- C1 counterexample: a downloading item whose cancel flag is set (by
Cancel All, which also sets its status to "cancelled") has its next hook
invocation raise; the orchestrator catches the raise and overwrites the
status with "failed" (storing "Download cancelled" as the error), so the
final status is "failed", not "cancelled" as the claim states. -/
theorem c1_counterexample :
    (download_single_video [Step.cancelAll, Step.ev dDl] (vFresh "a")).status = "failed"
    ∧ (download_single_video [Step.cancelAll, Step.ev dDl] (vFresh "a")).status ≠ "cancelled"
    ∧ (download_single_video [Step.cancelAll, Step.ev dDl] (vFresh "a")).error_message
        = "Download cancelled" := by
  decide

/-- C1 (amended): setting the cancel flag of a downloading item makes
the next progress-callback invocation raise "Download cancelled"; the
handler in `download_single_video` catches that raise like any other
failure and leaves the item with final status "failed" (not "completed",
and not "cancelled": the "cancelled" status written when the flag was set
is overwritten) and error message "Download cancelled". -/
theorem c1_cancel_marks_failed (v : VideoItem) (steps1 : List Step)
    (h1 : ∀ s ∈ steps1, DownloadingEv s) (d : ProgressDict) (steps2 : List Step) :
    (∀ u : VideoItem, u.status = "downloading" →
        run_steps (Step.cancelAll :: Step.ev d :: steps2) u
          = .err "Download cancelled" (cancel_all_item u))
    ∧ (download_single_video (steps1 ++ Step.cancelAll :: Step.ev d :: steps2) v).status
        = "failed"
    ∧ (download_single_video (steps1 ++ Step.cancelAll :: Step.ev d :: steps2) v).error_message
        = "Download cancelled" := by
  have key : ∀ u : VideoItem, u.status = "downloading" →
      run_steps (Step.cancelAll :: Step.ev d :: steps2) u
        = .err "Download cancelled" (cancel_all_item u) := by
    intro u hu
    rw [run_steps_cancelAll]
    have hcan : (cancel_all_item u).is_cancelled = true := by
      unfold cancel_all_item
      rw [if_pos (Or.inl hu)]
    rw [run_steps_ev_raised d steps2 hcan]
  refine ⟨key, ?_⟩
  obtain ⟨v', hrun, hc', hp', hs'⟩ :=
    run_downloading_evs steps1 h1 (Step.cancelAll :: Step.ev d :: steps2)
      (start_download v) rfl rfl rfl
  unfold download_single_video
  rw [hrun, key v' hs']
  exact ⟨rfl, rfl⟩

/-- C1 witness: the amended theorem at a concrete run (one downloading
event, then Cancel All, then the next event). -/
theorem c1_witness :
    (download_single_video [Step.ev dDl, Step.cancelAll, Step.ev dDl] (vFresh "w1")).status
        = "failed"
    ∧ (download_single_video
        [Step.ev dDl, Step.cancelAll, Step.ev dDl] (vFresh "w1")).error_message
        = "Download cancelled" :=
  ⟨(c1_cancel_marks_failed (vFresh "w1") [Step.ev dDl]
      (by rintro s hs; rw [List.mem_singleton] at hs; exact ⟨dDl, hs, rfl⟩)
      dDl []).2.1,
   (c1_cancel_marks_failed (vFresh "w1") [Step.ev dDl]
      (by rintro s hs; rw [List.mem_singleton] at hs; exact ⟨dDl, hs, rfl⟩)
      dDl []).2.2⟩

/-- C2 counterexample: with three entries, the first missing (None) and
the other two sharing the id "a", analysis produces only two items (so
the length differs from the number of entries) and the produced
identifiers are not unique. -/
theorem c2_counterexample :
    (process_analysis_results
        [none, some ⟨some "a", some "T1", none, none⟩,
          some ⟨some "a", some "T2", none, none⟩]).length
      ≠ ([none, some ⟨some "a", some "T1", none, none⟩,
          some ⟨some "a", some "T2", none, none⟩] : List (Option Entry)).length
    ∧ ¬ ((process_analysis_results
        [none, some ⟨some "a", some "T1", none, none⟩,
          some ⟨some "a", some "T2", none, none⟩]).map VideoItem.id).Nodup := by
  decide

/-- C2 (amended): analysis produces one VideoItem per entry that is
present and has a non-empty id, in source order, each carrying the id of
its entry; hence the item count equals the number of such entries, and
the produced identifiers are unique exactly when those entries have
pairwise distinct ids. -/
theorem c2_items_match_kept_entries (entries : List (Option Entry)) :
    (process_analysis_results entries).map VideoItem.id = keptIds entries
    ∧ (process_analysis_results entries).length = (keptIds entries).length
    ∧ ((keptIds entries).Nodup →
        ((process_analysis_results entries).map VideoItem.id).Nodup) := by
  have h := process_map_id entries 1
  refine ⟨h, ?_, fun hn => h ▸ hn⟩
  rw [← h, List.length_map]
  rfl

/-- C2 witness: the amended theorem at a concrete three-entry playlist
with distinct ids and one missing entry. -/
theorem c2_witness :
    ((process_analysis_results
        [some ⟨some "x", none, none, none⟩, none,
          some ⟨some "y", none, none, none⟩]).map VideoItem.id).Nodup
    ∧ (process_analysis_results
        [some ⟨some "x", none, none, none⟩, none,
          some ⟨some "y", none, none, none⟩]).map VideoItem.id
      = keptIds [some ⟨some "x", none, none, none⟩, none,
          some ⟨some "y", none, none, none⟩] :=
  ⟨(c2_items_match_kept_entries
      [some ⟨some "x", none, none, none⟩, none,
        some ⟨some "y", none, none, none⟩]).2.2 (by decide),
   (c2_items_match_kept_entries
      [some ⟨some "x", none, none, none⟩, none,
        some ⟨some "y", none, none, none⟩]).1⟩

/-- C3 counterexample: with an always-succeeding capability, a list of
two items of which the first is already completed ends with every item
completed but with reported overall progress 50 percent, because the
loop counter only counts items completed in this run (and the empty
list reports 0, not 100). The claim as stated is false. -/
theorem c3_counterexample :
    (∀ w ∈ (download_all_videos_thread sGood [vDone, vFresh "p"]).items,
        w.status = "completed")
    ∧ (download_all_videos_thread sGood [vDone, vFresh "p"]).bar = 50
    ∧ (download_all_videos_thread sGood [vDone, vFresh "p"]).bar ≠ 100
    ∧ (download_all_videos_thread sGood []).bar ≠ 100 := by
  have hbar50 : (download_all_videos_thread sGood [vDone, vFresh "p"]).bar = 50 := by
    have h := (c3_aux sGood 2 (fun _ => succeeds_finished dFin rfl)
      [vFresh "p"] 1 0 0 (by decide)).2.2 (by simp)
    show (download_all_aux sGood 2 0 0 0 [vDone, vFresh "p"]).bar = 50
    rw [aux_cons_skip sGood 2 0 0 0 vDone [vFresh "p"] (by decide)]
    show (download_all_aux sGood 2 (0 + 1) 0 0 [vFresh "p"]).bar = 50
    rw [Nat.zero_add, h]
    norm_num
  have hbar0 : (download_all_videos_thread sGood []).bar = 0 := rfl
  refine ⟨by decide, hbar50, by rw [hbar50]; norm_num, by rw [hbar0]; norm_num⟩

/-- C3 (amended): for a non-empty list of items none of which starts in
status "completed" or "failed", if every download succeeds (each run of
the capability fires a finished-phase callback and returns without
raising) then after the loop every item is completed, the completed
counter equals the number of items, and the reported overall progress
is 100 percent. -/
theorem c3_all_success_all_completed (scripts : Nat → List Step)
    (videos : List VideoItem) (hne : videos ≠ [])
    (hinit : ∀ v ∈ videos, ¬(v.status = "completed" ∨ v.status = "failed"))
    (hs : ∀ j, Succeeds (scripts j)) :
    (∀ w ∈ (download_all_videos_thread scripts videos).items, w.status = "completed")
    ∧ (download_all_videos_thread scripts videos).completed = videos.length
    ∧ (download_all_videos_thread scripts videos).bar = 100 := by
  obtain ⟨h1, h2, h3⟩ := c3_aux scripts videos.length hs videos 0 0 0 hinit
  refine ⟨h2, by simpa using h1, ?_⟩
  show (download_all_aux scripts videos.length 0 0 0 videos).bar = 100
  rw [h3 hne]
  have hlen : ((videos.length : ℕ) : ℚ) ≠ 0 := by
    have : videos.length ≠ 0 := fun h => hne (List.length_eq_zero.mp h)
    exact_mod_cast this
  rw [Nat.zero_add, div_self hlen, one_mul]

/-- C3 witness: the amended theorem on one fresh item with a succeeding
capability. -/
theorem c3_witness :
    (∀ w ∈ (download_all_videos_thread sGood [vFresh "w3"]).items,
        w.status = "completed")
    ∧ (download_all_videos_thread sGood [vFresh "w3"]).bar = 100 :=
  ⟨(c3_all_success_all_completed sGood [vFresh "w3"] (by decide) (by decide)
      (fun _ => succeeds_finished dFin rfl)).1,
   (c3_all_success_all_completed sGood [vFresh "w3"] (by decide) (by decide)
      (fun _ => succeeds_finished dFin rfl)).2.2⟩

/-- C4: if the download of item `k` (itself not already completed or
failed) raises a genuine error `msg` while every other download
succeeds, then items before `k` are processed normally (downloaded to
completion if eligible, skipped untouched otherwise), item `k` ends
failed with the non-empty message stored, every eligible item after `k`
is still attempted, and no position is attempted twice (nothing is
retried). -/
theorem c4_item_failure_isolated (scripts : Nat → List Step)
    (videos : List VideoItem) (k : Nat) (msg : String)
    (hk : k < videos.length) (hmsg : msg ≠ "")
    (hkatt : ¬((videos.getD k dummyItem).status = "completed" ∨
        (videos.getD k dummyItem).status = "failed"))
    (hfail : FailsWith (scripts k) msg)
    (hsucc : ∀ j, j ≠ k → Succeeds (scripts j)) :
    (∀ j, j < k →
        ¬((videos.getD j dummyItem).status = "completed" ∨
          (videos.getD j dummyItem).status = "failed") →
        ((download_all_videos_thread scripts videos).items.getD j dummyItem).status
          = "completed")
    ∧ (∀ j, j < k →
        ((videos.getD j dummyItem).status = "completed" ∨
          (videos.getD j dummyItem).status = "failed") →
        (download_all_videos_thread scripts videos).items.getD j dummyItem
          = videos.getD j dummyItem)
    ∧ ((download_all_videos_thread scripts videos).items.getD k dummyItem).status
        = "failed"
    ∧ ((download_all_videos_thread scripts videos).items.getD k dummyItem).error_message
        = msg
    ∧ ((download_all_videos_thread scripts videos).items.getD k dummyItem).error_message
        ≠ ""
    ∧ (∀ j, k < j → j < videos.length →
        ¬((videos.getD j dummyItem).status = "completed" ∨
          (videos.getD j dummyItem).status = "failed") →
        j ∈ (download_all_videos_thread scripts videos).attempted)
    ∧ (download_all_videos_thread scripts videos).attempted.Nodup := by
  have hitems : ∀ j, j < videos.length →
      (download_all_videos_thread scripts videos).items.getD j dummyItem =
        if (videos.getD j dummyItem).status = "completed" ∨
            (videos.getD j dummyItem).status = "failed"
        then videos.getD j dummyItem
        else download_single_video (scripts j) (videos.getD j dummyItem) := by
    intro j hj
    have h := items_getD scripts videos.length videos 0 0 j 0 hj
    rw [Nat.zero_add] at h
    exact h
  have hsorted := attempted_sorted scripts videos.length videos 0 0 0
  have hfk := download_single_fails hfail (videos.getD k dummyItem)
  refine ⟨?_, ?_, ?_, ?_, ?_, ?_, ?_⟩
  · intro j hj hatt
    rw [hitems j (by omega), if_neg hatt]
    exact download_single_succeeds (hsucc j (by omega)) _
  · intro j hj hskip
    rw [hitems j (by omega), if_pos hskip]
  · rw [hitems k hk, if_neg hkatt]
    exact hfk.1
  · rw [hitems k hk, if_neg hkatt]
    exact hfk.2
  · rw [hitems k hk, if_neg hkatt, hfk.2]
    exact hmsg
  · intro j h1 h2 hatt
    exact (mem_attempted scripts videos.length videos 0 0 0 j).mpr
      ⟨j, h2, by omega, hatt⟩
  · exact hsorted.imp (fun h => Nat.ne_of_lt h)

/-- C4 witness: two fresh items, item 0 raising "boom", item 1
succeeding; item 0 ends failed with message "boom" and item 1 is still
attempted. -/
theorem c4_witness :
    ((download_all_videos_thread sBad0 [vFresh "a", vFresh "b"]).items.getD 0
        dummyItem).status = "failed"
    ∧ ((download_all_videos_thread sBad0 [vFresh "a", vFresh "b"]).items.getD 0
        dummyItem).error_message = "boom"
    ∧ 1 ∈ (download_all_videos_thread sBad0 [vFresh "a", vFresh "b"]).attempted := by
  have h := c4_item_failure_isolated sBad0 [vFresh "a", vFresh "b"] 0 "boom"
    (by decide) (by decide) (by decide) (failswith_libRaise "boom")
    (fun j hj => by
      simp only [sBad0, if_neg hj]
      exact succeeds_finished dFin rfl)
  exact ⟨h.2.2.1, h.2.2.2.1, h.2.2.2.2.2.1 1 (by decide) (by decide) (by decide)⟩

/-- C5: the download-all loop attempts exactly the positions whose item
is not already completed or failed at visit time (pending, paused or
cancelled items included), in strictly increasing list order, each at
most once; the loop is sequential, one download at a time, by
construction of the recursion. -/
theorem c5_attempts_in_order_exactly_pending (scripts : Nat → List Step)
    (videos : List VideoItem) :
    (∀ j, j ∈ (download_all_videos_thread scripts videos).attempted ↔
        (j < videos.length ∧
          ¬((videos.getD j dummyItem).status = "completed" ∨
            (videos.getD j dummyItem).status = "failed")))
    ∧ (download_all_videos_thread scripts videos).attempted.Sorted (· < ·)
    ∧ (download_all_videos_thread scripts videos).attempted.Nodup := by
  have hsorted := attempted_sorted scripts videos.length videos 0 0 0
  refine ⟨?_, hsorted, hsorted.imp (fun h => Nat.ne_of_lt h)⟩
  intro j
  show j ∈ (download_all_aux scripts videos.length 0 0 0 videos).attempted ↔ _
  rw [mem_attempted]
  constructor
  · rintro ⟨k, hk, rfl, hP⟩
    rw [Nat.zero_add]
    exact ⟨hk, hP⟩
  · rintro ⟨hj, hP⟩
    exact ⟨j, hj, by omega, hP⟩

/-- C5 witness: with one already-completed item and one fresh item, only
position 1 is attempted. -/
theorem c5_witness :
    1 ∈ (download_all_videos_thread sGood [vDone, vFresh "w5"]).attempted
    ∧ (download_all_videos_thread sGood [vDone, vFresh "w5"]).attempted.Nodup := by
  have h := c5_attempts_in_order_exactly_pending sGood [vDone, vFresh "w5"]
  exact ⟨(h.1 1).mpr (by decide), h.2.2⟩

/-- C6: while the pause flag reads true at every poll, an invocation of
the progress callback stays blocked in the sleep loop: it does not
raise, and it returns the item unchanged (no progress, byte counter,
speed, ETA or status update happens, since the loop body only sleeps);
as soon as a poll reads the flag cleared, the same invocation proceeds
to the normal update `hook_body`. -/
theorem c6_pause_blocks_until_cleared (d : ProgressDict) (v : VideoItem)
    (cancelledAt pausedAt : Nat → Bool) (hc : cancelledAt 0 = false) :
    (∀ fuel, (∀ n, n < fuel → pausedAt n = true) →
        hook_core cancelledAt pausedAt fuel d v = .blocked v)
    ∧ (∀ fuel n, n < fuel → pausedAt n = false →
        hook_core cancelledAt pausedAt fuel d v = .ok (hook_body d v)) := by
  constructor
  · intro fuel hp
    unfold hook_core
    rw [hc, firstFalse_none pausedAt fuel hp]
    rfl
  · intro fuel n hn hpn
    obtain ⟨k, hk⟩ := firstFalse_isSome pausedAt fuel n hn hpn
    unfold hook_core
    rw [hc, hk]
    rfl

/-- C6 witness: the hook blocks for seven polls under a constantly set
pause flag, and proceeds to the normal update when the flag clears at
the third poll. -/
theorem c6_witness :
    hook_core (fun _ => false) (fun _ => true) 7 dDl (vFresh "w6")
        = .blocked (vFresh "w6")
    ∧ hook_core (fun _ => false) (fun n => decide (n < 2)) 7 dDl (vFresh "w6")
        = .ok (hook_body dDl (vFresh "w6")) :=
  ⟨(c6_pause_blocks_until_cleared dDl (vFresh "w6") (fun _ => false)
      (fun _ => true) rfl).1 7 (fun _ _ => rfl),
   (c6_pause_blocks_until_cleared dDl (vFresh "w6") (fun _ => false)
      (fun n => decide (n < 2)) rfl).2 7 2 (by decide) (by decide)⟩

/-- C7: on a downloading-phase event the callback proceeds to the state
update; when a total byte count is reported (the primary total if
nonzero, otherwise the estimate), progress becomes downloaded divided by
that total, as a percentage; when neither total is reported, progress
keeps its previous value. -/
theorem c7_progress_update (d : ProgressDict) (v : VideoItem)
    (hc : v.is_cancelled = false) (hp : v.is_paused = false)
    (hd : d.status = "downloading") :
    video_progress_hook d v = .ok (hook_body d v)
    ∧ ((d.total_bytes ≠ 0 ∨ d.total_bytes_estimate ≠ 0) →
        (hook_body d v).progress =
          ((d.downloaded_bytes : ℚ) /
            (((if d.total_bytes ≠ 0 then d.total_bytes
                else d.total_bytes_estimate) : ℕ) : ℚ)) * 100)
    ∧ (d.total_bytes = 0 → d.total_bytes_estimate = 0 →
        (hook_body d v).progress = v.progress) := by
  refine ⟨hook_ok d v hc hp, ?_, ?_⟩
  · intro hknown
    simp only [hook_body, if_pos hd]
    by_cases htb : d.total_bytes ≠ 0
    · rw [if_pos htb, if_pos (Nat.pos_of_ne_zero htb)]
    · have hest : d.total_bytes_estimate ≠ 0 := by tauto
      rw [if_neg htb, if_pos (Nat.pos_of_ne_zero hest)]
  · intro htb hest
    simp only [hook_body, if_pos hd, htb, hest]
    norm_num

/-- C7 witness: with a known total of 100 bytes and 10 downloaded the
progress becomes 10 percent; with no total reported it stays at its
previous value. -/
theorem c7_witness :
    (hook_body dDl (vFresh "w7")).progress = 10
    ∧ (hook_body dNoTotal (vFresh "w7")).progress = (vFresh "w7").progress := by
  have h := c7_progress_update dDl (vFresh "w7") rfl rfl rfl
  have h2 := c7_progress_update dNoTotal (vFresh "w7") rfl rfl rfl
  refine ⟨?_, h2.2.2 rfl rfl⟩
  rw [h.2.1 (by decide)]
  norm_num [dDl]

/-- C8: saving a download path and loading it in a fresh instance (whose
current path is the platform default) returns the same path, and loading
with no configuration file present leaves the default, the Downloads
folder under the home directory. -/
theorem c8_config_roundtrip (p home : String) :
    load_config (some (save_config p)) (defaultDownloadPath home) = p
    ∧ load_config none (defaultDownloadPath home) = defaultDownloadPath home :=
  ⟨rfl, rfl⟩

/-- C9: the cancellation flag is read only once, before the pause loop;
if it read false on entry, the invocation never raises no matter how the
flag changes at later polls, and stays blocked while the pause flag
holds. Moreover Cancel All sets the cancel flag of a paused item (and
status "cancelled") without clearing its pause flag, so a paused
download stays blocked instead of aborting. -/
theorem c9_cancel_during_pause_stays_blocked (d : ProgressDict)
    (v w : VideoItem) (cancelledAt pausedAt : Nat → Bool)
    (hc : cancelledAt 0 = false) (hp : ∀ n, pausedAt n = true)
    (hw : w.status = "paused") :
    (∀ fuel, hook_core cancelledAt pausedAt fuel d v = .blocked v)
    ∧ (cancel_all_item w).is_cancelled = true
    ∧ (cancel_all_item w).is_paused = w.is_paused
    ∧ (cancel_all_item w).status = "cancelled" := by
  have hcan : cancel_all_item w
      = { w with is_cancelled := true, status := "cancelled" } := by
    unfold cancel_all_item
    rw [if_pos (Or.inr hw)]
  refine ⟨?_, by rw [hcan], by rw [hcan], by rw [hcan]⟩
  intro fuel
  unfold hook_core
  rw [hc, firstFalse_none pausedAt fuel (fun n _ => hp n)]
  rfl

/-- C9 witness: the cancel flag flips to true from the second poll on
(set while the hook is blocked), yet the hook stays blocked; Cancel All
on a concrete paused item keeps its pause flag set. -/
theorem c9_witness :
    hook_core (fun n => decide (1 ≤ n)) (fun _ => true) 9 dDl (vFresh "w9")
        = .blocked (vFresh "w9")
    ∧ (cancel_all_item vPausedW).is_paused = vPausedW.is_paused
    ∧ (cancel_all_item vPausedW).is_cancelled = true := by
  have h := c9_cancel_during_pause_stays_blocked dDl (vFresh "w9") vPausedW
    (fun n => decide (1 ≤ n)) (fun _ => true) (by decide) (fun _ => rfl) rfl
  exact ⟨h.1 9, h.2.2.1, h.2.1⟩

/-- C10: `download_single_video` starts by putting the item into status
"downloading" with both control flags cleared, so its outcome does not
depend on any pause or cancel request (or status) set before the
download began: those are discarded the moment the download starts. -/
theorem c10_start_discards_stale_flags (steps : List Step) (v : VideoItem)
    (b1 b2 : Bool) (s : String) :
    (start_download v).status = "downloading"
    ∧ (start_download v).is_cancelled = false
    ∧ (start_download v).is_paused = false
    ∧ download_single_video steps
        { v with is_paused := b1, is_cancelled := b2, status := s }
        = download_single_video steps v :=
  ⟨rfl, rfl, rfl, rfl⟩

end Downloader
